import Mathlib

/-!
Shallow embedding of `src/OAuth_Token_Cleanup_Cron.py` (Kong expired-token
cleanup cron job) and proofs of the specification claims about it.

The script performs one linear pass: parse CLI arguments (validating the
SSL trust-store options), connect to Cassandra, capture one UTC "now",
count the token table, scan every token row deleting the expired ones and
tallying deletions per credential, count again, build an abuse report for
credentials with at least 100 deletions, optionally send an email, and
shut the cluster handle down.

Timestamps are modelled as a wall-clock value in seconds together with an
optional UTC-offset (`none` = timezone-naive), mirroring Python aware /
naive `datetime` values; aware datetimes compare by absolute instant
(wall-clock minus offset).  The Cassandra tables are modelled as lists,
the Python dict as an insertion-ordered association list, and the side
effects of connecting / shutting down as an event trace.
-/

namespace KongCleanup

/-- A Python `datetime`: wall-clock seconds plus an optional UTC offset in
seconds (`none` models a timezone-naive value). -/
structure Timestamp where
  wallclock : Int
  tz : Option Int
deriving DecidableEq, Repr

/-- Normalization `token_row.created_at.replace(tzinfo=pytz.utc)` when naive, else unchanged
(lines 83-87 of the script). -/
def normalizeCreatedAt (t : Timestamp) : Timestamp :=
  match t.tz with
  | none => { t with tz := some 0 }
  | some _ => t

/-- The absolute instant an aware datetime denotes (naive values, which the
script never compares directly, read their wall-clock as-is). -/
def toInstant (t : Timestamp) : Int :=
  t.wallclock - t.tz.getD 0

/-- One row of `oauth2_tokens` as selected by the script:
`id, credential_id, expires_in, created_at`. -/
structure TokenRow where
  id : Nat
  credential_id : Nat
  expires_in : Int
  created_at : Timestamp
deriving DecidableEq, Repr

/-- Computation `expiration_time = created_at + datetime.timedelta(seconds=token_row.expires_in)`
after UTC normalization, as an absolute instant (line 90). -/
def expirationInstant (row : TokenRow) : Int :=
  toInstant (normalizeCreatedAt row.created_at) + row.expires_in

/-- Comparison `current_time > expiration_time` (line 92): Python compares aware
datetimes by absolute instant, and `current_time` is the single UTC "now"
captured at the start of the run. -/
def isExpired (now : Int) (row : TokenRow) : Bool :=
  decide (expirationInstant row < now)

/-- Python dict lookup on the `consumer_tokens` dict. -/
def dictGet : List (Nat × Nat) → Nat → Option Nat
  | [], _ => none
  | (k', v) :: rest, k => if k' = k then some v else dictGet rest k

/-- The dict update of lines 94-97: increment if the key is present, else
insert it with value 1 (new keys go to the end, as in a Python dict). -/
def dictIncr : List (Nat × Nat) → Nat → List (Nat × Nat)
  | [], k => [(k, 1)]
  | (k', v) :: rest, k =>
      if k' = k then (k', v + 1) :: rest else (k', v) :: dictIncr rest k

/-- Total of all tallies held in the `consumer_tokens` dict. -/
def sumValues (d : List (Nat × Nat)) : Nat :=
  (d.map Prod.snd).sum

/-- Mutable state of the scan loop (lines 79-101): the current contents of
`oauth2_tokens`, the `rowsdeleted` counter and the `consumer_tokens` dict. -/
structure ScanState where
  table : List TokenRow
  rowsdeleted : Nat
  consumer_tokens : List (Nat × Nat)
deriving DecidableEq, Repr

/-- One iteration of the scan loop: if the row is expired, tally its
credential, count the deletion and execute `DELETE ... where id=<row id>`
(deletion removes every table row with that id). -/
def processRow (now : Int) (st : ScanState) (row : TokenRow) : ScanState :=
  if isExpired now row then
    { table := st.table.filter (fun r => r.id != row.id)
      rowsdeleted := st.rowsdeleted + 1
      consumer_tokens := dictIncr st.consumer_tokens row.credential_id }
  else st

/-- The whole scan loop: iterate over the materialized SELECT result while
the table itself shrinks under the deletes. -/
def scanTokens (now : Int) (rows : List TokenRow) : ScanState :=
  rows.foldl (processRow now) { table := rows, rowsdeleted := 0, consumer_tokens := [] }

/-- CLI arguments relevant to behaviour (`args.email`, `args.sender`,
`args.smtpserver`, `args.ssl`, `args.ca`); `none` is the argparse default. -/
structure Args where
  email : Option String
  sender : Option String
  smtpserver : Option String
  ssl : Bool
  ca : Option String
deriving DecidableEq, Repr

/-- Python truthiness of an optional string: `None` and `""` are falsy. -/
def truthy : Option String → Bool
  | none => false
  | some s => !(s == "")

/-- An email message as assembled by `sendEmailAlert`. -/
structure Email where
  subject : String
  fromAddr : String
  toAddr : String
  body : String
deriving DecidableEq, Repr

/-- Function `sendEmailAlert` (lines 54-64): guarded by `if args.email and
args.smtpserver:`; the sender falls back to a generated label when
`args.sender` is falsy.  The result is the list of messages handed to the
SMTP relay (empty or a singleton). -/
def sendEmailAlert (args : Args) (BODY dbhost subject exec_time : String) : List Email :=
  if truthy args.email && truthy args.smtpserver then
    let sender :=
      if truthy args.sender then args.sender.getD ""
      else dbhost ++ " OAuth Token Cleanup Script"
    [{ subject := dbhost ++ " " ++ subject ++ " executed at " ++ exec_time
       fromAddr := sender
       toAddr := args.email.getD ""
       body := BODY }]
  else []

/-- A row of `oauth2_credentials` (`id`, `consumer_id`). -/
structure Credential where
  id : Nat
  consumer_id : Nat
deriving DecidableEq, Repr

/-- A row of `consumers` (`id`, `username`). -/
structure Consumer where
  id : Nat
  username : String
deriving DecidableEq, Repr

/-- Query `SELECT consumer_id FROM oauth2_credentials where id = <key>` followed by
`[0]`: first matching row, `none` when the indexing would raise. -/
def lookupConsumerId (creds : List Credential) (k : Nat) : Option Nat :=
  ((creds.filter (fun c => c.id == k)).head?).map Credential.consumer_id

/-- Query `SELECT username FROM consumers where id = <consumer_id>` followed by
`[0]`. -/
def lookupUsername (cs : List Consumer) (cid : Nat) : Option String :=
  ((cs.filter (fun c => c.id == cid)).head?).map Consumer.username

/-- One line of the abuse report (lines 108-118): the tally key it was built
from, the resolved consumer id and username, and the tally value printed as
"Tokens Created". -/
structure AbuseLine where
  credential : Nat
  consumer_id : Nat
  username : String
  tokens_created : Nat
deriving DecidableEq, Repr

/-- Resolve one offending tally entry; `none` models the `IndexError` the
script raises when a lookup returns no row. -/
def resolveAbuseLine (creds : List Credential) (cs : List Consumer)
    (kv : Nat × Nat) : Option AbuseLine :=
  (lookupConsumerId creds kv.1).bind fun cid =>
    (lookupUsername cs cid).map fun u =>
      { credential := kv.1, consumer_id := cid, username := u, tokens_created := kv.2 }

/-- The abuse-report loop over `consumer_tokens.items()` with its
`if value >= 100:` guard; `none` when any resolution raises. -/
def resolveReport (creds : List Credential) (cs : List Consumer) :
    List (Nat × Nat) → Option (List AbuseLine)
  | [] => some []
  | kv :: rest =>
      if 100 ≤ kv.2 then
        match resolveAbuseLine creds cs kv, resolveReport creds cs rest with
        | some l, some ls => some (l :: ls)
        | _, _ => none
      else resolveReport creds cs rest

/-- The HTML fragment accumulated for the abuse section. -/
def abuseTableHtml (keyspace : String) (lines : List AbuseLine) : String :=
  lines.foldl
    (fun acc l =>
      acc ++ "<br/><span class=\"black\">Cassandra Keyspace: </span> " ++ keyspace ++
        "<br/><span class=\"black\">Consumer ID: </span> " ++ toString l.consumer_id ++
        "<br/><span class=\"black\">Consumer Name: </span> " ++ l.username ++
        "<br/><span class=\"black\">Tokens Created: </span> " ++ toString l.tokens_created ++
        "<hr/>")
    "<hr/><span class=\"black\">Consumer Token Creation Abuse (If any): </span><hr/>"

/-- The full HTML report body handed to `sendEmailAlert` (line 120). -/
def reportBody (casshost keyspace : String) (rowsdeleted : Nat) (abuseTable : String) : String :=
  "<html> <head> <style> body\x7b font-family: FrutigerLTStd-Light, Arial, sans-serif;\x7d h1, h2, h3, h4 \x7b color:#e87722; font-weight: bold; text-rendering: optimizeLegibility; margin: 0 0 24px 0; \x7d .black\x7b color:#333333; \x7d.light\x7b color:#8c8c8c; font-size: 10px; \x7d </style> </head> <body> <br/> <h1><span class=\"black\">Server:</span> " ++
    casshost ++ "<br/><span class=\"black\">Cassandra Keyspace: </span> " ++ keyspace ++
    "<br/><span class=\"black\">OAuth_Tokens Rows Deleted: </span> " ++ toString rowsdeleted ++
    "</h1> " ++ abuseTable ++ "</body> </html>"

/-- Connection-lifecycle side effects of one run. -/
inductive Event where
  | connect
  | shutdown
deriving DecidableEq, Repr

/-- Everything one invocation of `deleteExpiredIDs` produces: the event
trace, the two COUNT(*) observations, the scan counters, the report (or the
error that aborted the run) and the emails handed to SMTP. -/
structure SweepOutcome where
  events : List Event
  count_before : Nat
  count_after : Nat
  rowsdeleted : Nat
  consumer_tokens : List (Nat × Nat)
  report : Except String (List AbuseLine)
  emails : List Email
deriving Repr

/-- Whether the run reached its end without raising. -/
def sweepSucceeded (o : SweepOutcome) : Bool :=
  match o.report with
  | .ok _ => true
  | .error _ => false

/-- Function `deleteExpiredIDs` (lines 66-121): connect, capture "now", COUNT, scan
and delete, COUNT again, build the abuse report (aborting on a failed
lookup), email, and only then `cluster.shutdown()`.  A run that aborts
mid-report never emits the `shutdown` event. -/
def runSweep (now : Int) (tokens : List TokenRow) (creds : List Credential)
    (cs : List Consumer) (args : Args) (keyspace casshost : String) : SweepOutcome :=
  match resolveReport creds cs (scanTokens now tokens).consumer_tokens with
  | none =>
      { events := [Event.connect]
        count_before := tokens.length
        count_after := (scanTokens now tokens).table.length
        rowsdeleted := (scanTokens now tokens).rowsdeleted
        consumer_tokens := (scanTokens now tokens).consumer_tokens
        report := Except.error "IndexError: list index out of range"
        emails := [] }
  | some lines =>
      { events := [Event.connect, Event.shutdown]
        count_before := tokens.length
        count_after := (scanTokens now tokens).table.length
        rowsdeleted := (scanTokens now tokens).rowsdeleted
        consumer_tokens := (scanTokens now tokens).consumer_tokens
        report := Except.ok lines
        emails := sendEmailAlert args
          (reportBody casshost keyspace (scanTokens now tokens).rowsdeleted
            (abuseTableHtml keyspace lines))
          casshost "OAuth Token Cleanup" "exec_time" }

/-- The SSL-option validation at module level (lines 40-44): with `--ssl`,
`--ca` must be supplied and the path must exist, otherwise
`parser.error(...)` aborts the process. -/
inductive CliOutcome where
  | usageError : String → CliOutcome
  | proceed : Option String → CliOutcome
deriving DecidableEq, Repr

/-- Lines 40-50 of the script; `pathExists` stands for `os.path.exists`. -/
def validateSslArgs (ssl : Bool) (ca : Option String) (pathExists : String → Bool) :
    CliOutcome :=
  if ssl then
    match ca with
    | none => CliOutcome.usageError "--ssl requires --ca to set a truststore"
    | some path =>
        if !(pathExists path) then CliOutcome.usageError "--ca file not found or reachable"
        else CliOutcome.proceed (some path)
  else CliOutcome.proceed none

/-- Whole-program run: argument validation happens at module level, before
`deleteExpiredIDs` is ever called; a usage error aborts with no run at all. -/
def programRun (pathExists : String → Bool) (args : Args) (now : Int)
    (tokens : List TokenRow) (creds : List Credential) (cs : List Consumer)
    (keyspace casshost : String) : Except String SweepOutcome :=
  match validateSslArgs args.ssl args.ca pathExists with
  | CliOutcome.usageError m => Except.error m
  | CliOutcome.proceed _ => Except.ok (runSweep now tokens creds cs args keyspace casshost)

/-- Events observed by a whole-program run (an aborted process produced none). -/
def programEvents (r : Except String SweepOutcome) : List Event :=
  match r with
  | Except.error _ => []
  | Except.ok o => o.events

/-- An optional CLI string that is either unset or set to a non-empty value
(the normal shape of a supplied flag). -/
def noneOrNonempty (o : Option String) : Prop :=
  o = none ∨ ∃ s, o = some s ∧ s ≠ ""

/-- Everything a sweep does apart from the email it hands to SMTP: the
deletion and reporting behaviour of the run. -/
def coreOf (o : SweepOutcome) :
    List Event × Nat × Nat × Nat × List (Nat × Nat) × Except String (List AbuseLine) :=
  (o.events, o.count_before, o.count_after, o.rowsdeleted, o.consumer_tokens, o.report)

end KongCleanup

namespace KongCleanup

/-! Lemmas about the scan loop.

The branch taken by `processRow` depends only on the row, never on the
accumulated state, so the three state components fold independently. -/

/-- The table left by the loop: the start table minus every id that some
expired row of the iterated SELECT result carries. -/
theorem foldl_processRow_table (now : Int) (rows : List TokenRow) (st : ScanState) :
    (rows.foldl (processRow now) st).table =
      st.table.filter
        (fun r => !decide (r.id ∈ (rows.filter (isExpired now)).map TokenRow.id)) := by
  induction rows generalizing st with
  | nil => simp
  | cons row rest ih =>
    by_cases hexp : isExpired now row
    · simp only [List.foldl_cons, processRow, hexp, if_pos, List.filter_cons_of_pos,
        List.map_cons, ih, List.filter_filter]
      refine List.filter_congr fun r _ => ?_
      simp [List.mem_cons, Bool.and_comm, not_or, bne]
    · simp only [List.foldl_cons, processRow, hexp, Bool.false_eq_true, if_neg,
        not_false_eq_true, List.filter_cons_of_neg, ih]

/-- The `rowsdeleted` counter counts exactly the expired rows of the scan. -/
theorem foldl_processRow_rowsdeleted (now : Int) (rows : List TokenRow) (st : ScanState) :
    (rows.foldl (processRow now) st).rowsdeleted =
      st.rowsdeleted + rows.countP (isExpired now) := by
  induction rows generalizing st with
  | nil => simp
  | cons row rest ih =>
    by_cases hexp : isExpired now row
    · simp [processRow, hexp, ih, List.countP_cons]
      omega
    · simp [processRow, hexp, ih, List.countP_cons]

/-- The tally dict is the fold of `dictIncr` over the credential ids of the
expired rows, in scan order. -/
theorem foldl_processRow_consumer_tokens (now : Int) (rows : List TokenRow) (st : ScanState) :
    (rows.foldl (processRow now) st).consumer_tokens =
      ((rows.filter (isExpired now)).map TokenRow.credential_id).foldl
        dictIncr st.consumer_tokens := by
  induction rows generalizing st with
  | nil => simp
  | cons row rest ih =>
    by_cases hexp : isExpired now row
    · simp [processRow, hexp, ih]
    · simp [processRow, hexp, ih]

/-- With distinct ids (the primary key of the table), the surviving table is
exactly the non-expired rows, in order. -/
theorem scanTokens_table_nodup (now : Int) (rows : List TokenRow)
    (hnd : (rows.map TokenRow.id).Nodup) :
    (scanTokens now rows).table = rows.filter (fun r => !isExpired now r) := by
  unfold scanTokens
  rw [foldl_processRow_table]
  refine List.filter_congr fun r hr => ?_
  have hinj := List.inj_on_of_nodup_map hnd
  congr 1
  by_cases hexp : isExpired now r
  · have : r.id ∈ (rows.filter (isExpired now)).map TokenRow.id :=
      List.mem_map_of_mem _ (List.mem_filter.mpr ⟨hr, hexp⟩)
    simp [this, hexp]
  · have : r.id ∉ (rows.filter (isExpired now)).map TokenRow.id := by
      intro hmem
      rcases List.mem_map.mp hmem with ⟨q, hq, hqid⟩
      rcases List.mem_filter.mp hq with ⟨hqrows, hqexp⟩
      have : q = r := hinj hqrows hr hqid
      subst this
      exact hexp hqexp
    simp [this, hexp]

/-! Lemmas about the tally dict. -/

/-- Lemma: `dictIncr` bumps exactly the requested key by one. -/
theorem dictGet_dictIncr (d : List (Nat × Nat)) (j k : Nat) :
    dictGet (dictIncr d j) k =
      if j = k then some ((dictGet d k).getD 0 + 1) else dictGet d k := by
  induction d with
  | nil =>
    by_cases h : j = k <;> simp [dictIncr, dictGet, h]
  | cons kv rest ih =>
    obtain ⟨a, v⟩ := kv
    by_cases h1 : a = j
    · subst h1
      by_cases h2 : a = k <;> simp [dictIncr, dictGet, h2]
    · by_cases h2 : a = k
      · have hjk : j ≠ k := fun he => h1 (h2.trans he.symm)
        have hkj : ¬k = j := fun he => hjk he.symm
        simp [dictIncr, dictGet, h1, h2, hjk, hkj]
      · simp [dictIncr, dictGet, h1, h2, ih]

/-- Folding `dictIncr` over a key list leaves each key at its multiplicity
in the list (absent keys stay absent). -/
theorem dictGet_foldl_dictIncr (ks : List Nat) (d : List (Nat × Nat)) (k : Nat) :
    dictGet (ks.foldl dictIncr d) k =
      if ks.count k = 0 then dictGet d k
      else some ((dictGet d k).getD 0 + ks.count k) := by
  induction ks generalizing d with
  | nil => simp
  | cons j rest ih =>
    rw [List.foldl_cons, ih, dictGet_dictIncr]
    by_cases hjk : j = k
    · subst hjk
      by_cases hr : rest.count j = 0 <;>
        (simp [hr, List.count_cons, Option.getD]; try omega)
    · have : (j :: rest).count k = rest.count k := by
        simp [List.count_cons, hjk]
      rw [this]
      by_cases hr : rest.count k = 0 <;> simp [hr, hjk]

/-- Lemma: `dictIncr` grows the total tally by exactly one. -/
theorem sumValues_dictIncr (d : List (Nat × Nat)) (k : Nat) :
    sumValues (dictIncr d k) = sumValues d + 1 := by
  induction d with
  | nil => simp [dictIncr, sumValues]
  | cons kv rest ih =>
    obtain ⟨a, v⟩ := kv
    by_cases h : a = k <;> simp [dictIncr, sumValues, h] <;>
      simp [sumValues] at ih <;> omega

/-- Folding `dictIncr` adds the length of the key list to the total tally. -/
theorem sumValues_foldl_dictIncr (ks : List Nat) (d : List (Nat × Nat)) :
    sumValues (ks.foldl dictIncr d) = sumValues d + ks.length := by
  induction ks generalizing d with
  | nil => simp
  | cons j rest ih =>
    rw [List.foldl_cons, ih, sumValues_dictIncr]
    simp only [List.length_cons]
    omega

/-- Splitting the length of a list by a Boolean predicate. -/
theorem length_filter_not_add_countP (l : List TokenRow) (p : TokenRow → Bool) :
    (l.filter (fun a => !p a)).length + l.countP p = l.length := by
  induction l with
  | nil => simp
  | cons a t ih =>
    by_cases h : p a <;> simp [h, List.countP_cons, ih] <;> omega

/-- The counter fields of `runSweep` do not depend on whether the
abuse-report phase succeeds. -/
theorem runSweep_counters (now : Int) (tokens : List TokenRow) (creds : List Credential)
    (cs : List Consumer) (args : Args) (ks ch : String) :
    (runSweep now tokens creds cs args ks ch).count_before = tokens.length
    ∧ (runSweep now tokens creds cs args ks ch).count_after =
        (scanTokens now tokens).table.length
    ∧ (runSweep now tokens creds cs args ks ch).rowsdeleted =
        (scanTokens now tokens).rowsdeleted
    ∧ (runSweep now tokens creds cs args ks ch).consumer_tokens =
        (scanTokens now tokens).consumer_tokens := by
  unfold runSweep
  split <;> simp

/-- C5: the expiration decision for a timezone-naive creation timestamp
equals the decision for the same wall-clock timestamp with explicit UTC
attached, for every now, wall-clock value and ttl. -/
theorem naive_utc_expiration_agree (now : Int) (w : Int) (ttl : Int) (i c : Nat) :
    isExpired now { id := i, credential_id := c, expires_in := ttl,
                    created_at := { wallclock := w, tz := none } } =
    isExpired now { id := i, credential_id := c, expires_in := ttl,
                    created_at := { wallclock := w, tz := some 0 } } := by
  simp [isExpired, expirationInstant, normalizeCreatedAt, toInstant]

/-- C10: the email guard tests truthiness, not presence: an empty-string
`--email` or `--smtpserver` behaves exactly like an omitted flag (nothing is
sent), and an empty-string `--sender` falls back to the generated default
From label. -/
theorem email_guard_truthiness (args : Args) (b h s t : String) :
    sendEmailAlert { args with email := some "" } b h s t = []
    ∧ sendEmailAlert { args with smtpserver := some "" } b h s t = []
    ∧ sendEmailAlert { args with email := some "" } b h s t =
        sendEmailAlert { args with email := none } b h s t
    ∧ sendEmailAlert { args with smtpserver := some "" } b h s t =
        sendEmailAlert { args with smtpserver := none } b h s t
    ∧ (sendEmailAlert { args with sender := some "" } b h s t).all
        (fun e => e.fromAddr == h ++ " OAuth Token Cleanup Script") = true := by
  refine ⟨?_, ?_, ?_, ?_, ?_⟩ <;>
    simp [sendEmailAlert, truthy]
  intro x _ _ hx
  subst hx
  rfl

/-- C1: with distinct token ids, a scanned record is deleted if and only if
the single "now" captured at the start of the run strictly exceeds its
UTC-normalized expiration instant; a token whose expiration instant equals
"now" exactly is retained. -/
theorem token_deleted_iff_expired (now : Int) (rows : List TokenRow)
    (hnd : (rows.map TokenRow.id).Nodup) (r : TokenRow) (hr : r ∈ rows) :
    (r ∉ (scanTokens now rows).table ↔ expirationInstant r < now)
    ∧ (now = expirationInstant r → r ∈ (scanTokens now rows).table) := by
  rw [scanTokens_table_nodup now rows hnd]
  constructor
  · constructor
    · intro hnot
      by_contra hlt
      exact hnot (List.mem_filter.mpr ⟨hr, by simp [isExpired]; omega⟩)
    · intro hlt hmem
      have h2 := (List.mem_filter.mp hmem).2
      simp [isExpired] at h2
      omega
  · intro heq
    refine List.mem_filter.mpr ⟨hr, ?_⟩
    simp [isExpired]
    omega

/-- Witness for C1: one token created at instant 0 with ttl 3600, scanned at
now = 3601, is deleted (3601 strictly exceeds 3600). -/
theorem token_deleted_iff_expired_witness :
    (([({ id := 1, credential_id := 5, expires_in := 3600,
          created_at := { wallclock := 0, tz := none } } : TokenRow)].map TokenRow.id).Nodup)
    ∧ (({ id := 1, credential_id := 5, expires_in := 3600,
          created_at := { wallclock := 0, tz := none } } : TokenRow) ∈
        [({ id := 1, credential_id := 5, expires_in := 3600,
            created_at := { wallclock := 0, tz := none } } : TokenRow)])
    ∧ ((({ id := 1, credential_id := 5, expires_in := 3600,
           created_at := { wallclock := 0, tz := none } } : TokenRow) ∉
          (scanTokens 3601
            [({ id := 1, credential_id := 5, expires_in := 3600,
                created_at := { wallclock := 0, tz := none } } : TokenRow)]).table ↔
        expirationInstant
          ({ id := 1, credential_id := 5, expires_in := 3600,
             created_at := { wallclock := 0, tz := none } } : TokenRow) < 3601)
      ∧ (3601 = expirationInstant
            ({ id := 1, credential_id := 5, expires_in := 3600,
               created_at := { wallclock := 0, tz := none } } : TokenRow) →
          ({ id := 1, credential_id := 5, expires_in := 3600,
             created_at := { wallclock := 0, tz := none } } : TokenRow) ∈
            (scanTokens 3601
              [({ id := 1, credential_id := 5, expires_in := 3600,
                  created_at := { wallclock := 0, tz := none } } : TokenRow)]).table)) :=
  ⟨by decide, by decide,
    token_deleted_iff_expired 3601 _ (by decide) _ (by decide)⟩

/-- C2: with distinct token ids and no external writer (the model has none),
the count observed after deletion equals the count observed before minus
the number of rows deleted, exactly. -/
theorem count_postcondition (now : Int) (tokens : List TokenRow) (creds : List Credential)
    (cs : List Consumer) (args : Args) (ks ch : String)
    (hnd : (tokens.map TokenRow.id).Nodup) :
    (runSweep now tokens creds cs args ks ch).count_after =
      (runSweep now tokens creds cs args ks ch).count_before
        - (runSweep now tokens creds cs args ks ch).rowsdeleted
    ∧ (runSweep now tokens creds cs args ks ch).count_after
        + (runSweep now tokens creds cs args ks ch).rowsdeleted =
      (runSweep now tokens creds cs args ks ch).count_before := by
  obtain ⟨h1, h2, h3, -⟩ := runSweep_counters now tokens creds cs args ks ch
  rw [h1, h2, h3]
  have hdel : (scanTokens now tokens).rowsdeleted = tokens.countP (isExpired now) := by
    unfold scanTokens
    rw [foldl_processRow_rowsdeleted]
    simp
  have hlen := length_filter_not_add_countP tokens (isExpired now)
  rw [scanTokens_table_nodup now tokens hnd, hdel]
  omega

/-- Witness for C2: two tokens with distinct ids, one expired, one live:
1 = 2 - 1 and 1 + 1 = 2. -/
theorem count_postcondition_witness :
    (([({ id := 1, credential_id := 5, expires_in := 10,
          created_at := { wallclock := 0, tz := none } } : TokenRow),
       ({ id := 2, credential_id := 5, expires_in := 1000,
          created_at := { wallclock := 0, tz := none } } : TokenRow)].map TokenRow.id).Nodup)
    ∧ ((runSweep 100
          [({ id := 1, credential_id := 5, expires_in := 10,
              created_at := { wallclock := 0, tz := none } } : TokenRow),
           ({ id := 2, credential_id := 5, expires_in := 1000,
              created_at := { wallclock := 0, tz := none } } : TokenRow)]
          [] [] { email := none, sender := none, smtpserver := none, ssl := false, ca := none }
          "kong" "host").count_after =
        (runSweep 100
          [({ id := 1, credential_id := 5, expires_in := 10,
              created_at := { wallclock := 0, tz := none } } : TokenRow),
           ({ id := 2, credential_id := 5, expires_in := 1000,
              created_at := { wallclock := 0, tz := none } } : TokenRow)]
          [] [] { email := none, sender := none, smtpserver := none, ssl := false, ca := none }
          "kong" "host").count_before
          - (runSweep 100
              [({ id := 1, credential_id := 5, expires_in := 10,
                  created_at := { wallclock := 0, tz := none } } : TokenRow),
               ({ id := 2, credential_id := 5, expires_in := 1000,
                  created_at := { wallclock := 0, tz := none } } : TokenRow)]
              [] [] { email := none, sender := none, smtpserver := none, ssl := false, ca := none }
              "kong" "host").rowsdeleted
      ∧ (runSweep 100
          [({ id := 1, credential_id := 5, expires_in := 10,
              created_at := { wallclock := 0, tz := none } } : TokenRow),
           ({ id := 2, credential_id := 5, expires_in := 1000,
              created_at := { wallclock := 0, tz := none } } : TokenRow)]
          [] [] { email := none, sender := none, smtpserver := none, ssl := false, ca := none }
          "kong" "host").count_after
          + (runSweep 100
              [({ id := 1, credential_id := 5, expires_in := 10,
                  created_at := { wallclock := 0, tz := none } } : TokenRow),
               ({ id := 2, credential_id := 5, expires_in := 1000,
                  created_at := { wallclock := 0, tz := none } } : TokenRow)]
              [] [] { email := none, sender := none, smtpserver := none, ssl := false, ca := none }
              "kong" "host").rowsdeleted =
        (runSweep 100
          [({ id := 1, credential_id := 5, expires_in := 10,
              created_at := { wallclock := 0, tz := none } } : TokenRow),
           ({ id := 2, credential_id := 5, expires_in := 1000,
              created_at := { wallclock := 0, tz := none } } : TokenRow)]
          [] [] { email := none, sender := none, smtpserver := none, ssl := false, ca := none }
          "kong" "host").count_before) :=
  ⟨by decide, count_postcondition 100 _ [] [] _ "kong" "host" (by decide)⟩

/-- C3: the tally dict maps a credential to exactly the number of its rows
deleted in this run when that number is at least one, and holds no entry at
all (rather than a zero) for credentials with no deleted rows. -/
theorem tally_exact (now : Int) (rows : List TokenRow) (k : Nat) :
    dictGet (scanTokens now rows).consumer_tokens k =
      (if rows.countP (fun r => (r.credential_id == k) && isExpired now r) = 0 then none
       else some (rows.countP (fun r => (r.credential_id == k) && isExpired now r))) := by
  unfold scanTokens
  rw [foldl_processRow_consumer_tokens, dictGet_foldl_dictIncr]
  have hc : ((rows.filter (isExpired now)).map TokenRow.credential_id).count k
      = rows.countP (fun r => (r.credential_id == k) && isExpired now r) := by
    rw [List.count, List.countP_map, List.countP_filter]
    rfl
  rw [hc]
  by_cases h : rows.countP (fun r => (r.credential_id == k) && isExpired now r) = 0 <;>
    simp [h, dictGet]

/-! Lemmas about the abuse report. -/

/-- The keys of `dictIncr d j` are those of `d` plus `j`. -/
theorem mem_keys_dictIncr (d : List (Nat × Nat)) (j k : Nat) :
    k ∈ (dictIncr d j).map Prod.fst ↔ k ∈ d.map Prod.fst ∨ k = j := by
  induction d with
  | nil => simp [dictIncr]
  | cons kv rest ih =>
    obtain ⟨a, v⟩ := kv
    by_cases h : a = j <;> simp [dictIncr, h, ih] <;> tauto

/-- Lemma: `dictIncr` keeps the dict keys distinct. -/
theorem nodup_keys_dictIncr (d : List (Nat × Nat)) (j : Nat)
    (hnd : (d.map Prod.fst).Nodup) : ((dictIncr d j).map Prod.fst).Nodup := by
  induction d with
  | nil => simp [dictIncr]
  | cons kv rest ih =>
    obtain ⟨a, v⟩ := kv
    simp only [List.map_cons, List.nodup_cons] at hnd
    by_cases h : a = j
    · simpa [dictIncr, h] using hnd
    · have heq : dictIncr ((a, v) :: rest) j = (a, v) :: dictIncr rest j := by
        simp [dictIncr, h]
      rw [heq]
      simp only [List.map_cons, List.nodup_cons, mem_keys_dictIncr]
      refine ⟨?_, ih hnd.2⟩
      rintro (hm | hm)
      · exact hnd.1 hm
      · exact h hm

/-- Folding `dictIncr` keeps the dict keys distinct. -/
theorem nodup_keys_foldl_dictIncr (ks : List Nat) (d : List (Nat × Nat))
    (hnd : (d.map Prod.fst).Nodup) : ((ks.foldl dictIncr d).map Prod.fst).Nodup := by
  induction ks generalizing d with
  | nil => exact hnd
  | cons j rest ih => exact ih _ (nodup_keys_dictIncr _ _ hnd)

/-- The tally dict of the scan has distinct keys. -/
theorem scan_tally_nodup_keys (now : Int) (rows : List TokenRow) :
    (((scanTokens now rows).consumer_tokens).map Prod.fst).Nodup := by
  unfold scanTokens
  rw [foldl_processRow_consumer_tokens]
  exact nodup_keys_foldl_dictIncr _ _ (by simp)

/-- With distinct keys, membership determines the lookup. -/
theorem dictGet_eq_some_of_mem (d : List (Nat × Nat)) (hnd : (d.map Prod.fst).Nodup)
    (k v : Nat) (hm : (k, v) ∈ d) : dictGet d k = some v := by
  induction d with
  | nil => simp at hm
  | cons kv rest ih =>
    obtain ⟨a, w⟩ := kv
    simp only [List.map_cons, List.nodup_cons] at hnd
    rcases List.mem_cons.mp hm with h | h
    · obtain ⟨h1, h2⟩ := Prod.mk.injEq .. ▸ h
      simp [dictGet, h1.symm, h2]
    · have hak : a ≠ k := by
        intro he
        subst he
        exact hnd.1 (List.mem_map_of_mem Prod.fst h)
      simp [dictGet, hak, ih hnd.2 h]

/-- With distinct keys, counting entries whose key is `k` and whose value
satisfies `q` collapses to a lookup. -/
theorem countP_key_of_nodup (d : List (Nat × Nat)) (hnd : (d.map Prod.fst).Nodup)
    (k : Nat) (q : Nat → Bool) :
    d.countP (fun kv => (kv.1 == k) && q kv.2) =
      (match dictGet d k with
       | some v => if q v then 1 else 0
       | none => 0) := by
  induction d with
  | nil => simp [dictGet]
  | cons kv rest ih =>
    obtain ⟨a, v⟩ := kv
    simp only [List.map_cons, List.nodup_cons] at hnd
    by_cases hak : a = k
    · subst hak
      have hzero : rest.countP (fun kv => (kv.1 == a) && q kv.2) = 0 := by
        refine List.countP_eq_zero.mpr fun kv hkv => ?_
        have : kv.1 ≠ a := by
          intro he
          exact hnd.1 (he ▸ List.mem_map_of_mem Prod.fst hkv)
        simp [this]
      simp [List.countP_cons, dictGet, hzero]
    · simp [List.countP_cons, dictGet, hak, ih hnd.2]

/-- Unpacking a successful single-entry resolution (lines 109-112): the line
carries the tally key and value and the two looked-up fields. -/
theorem resolveAbuseLine_fields (creds : List Credential) (cs : List Consumer)
    (kv : Nat × Nat) (l : AbuseLine) (h : resolveAbuseLine creds cs kv = some l) :
    l.credential = kv.1 ∧ l.tokens_created = kv.2
    ∧ lookupConsumerId creds kv.1 = some l.consumer_id
    ∧ lookupUsername cs l.consumer_id = some l.username := by
  unfold resolveAbuseLine at h
  cases hc : lookupConsumerId creds kv.1 with
  | none => rw [hc] at h; cases h
  | some cid =>
    rw [hc] at h
    cases hu : lookupUsername cs cid with
    | none =>
      rw [Option.some_bind, hu] at h
      cases h
    | some u =>
      rw [Option.some_bind, hu, Option.map_some'] at h
      cases h
      simp [hc, hu]

/-- Per-key count of report lines equals the per-key count of qualifying
tally entries. -/
theorem resolveReport_count (creds : List Credential) (cs : List Consumer)
    (tally : List (Nat × Nat)) (lines : List AbuseLine)
    (h : resolveReport creds cs tally = some lines) (k : Nat) :
    lines.countP (fun l => l.credential == k) =
      tally.countP (fun kv => (kv.1 == k) && decide (100 ≤ kv.2)) := by
  induction tally generalizing lines with
  | nil =>
    unfold resolveReport at h
    cases h
    simp
  | cons kv rest ih =>
    unfold resolveReport at h
    by_cases h100 : 100 ≤ kv.2
    · rw [if_pos h100] at h
      cases habs : resolveAbuseLine creds cs kv with
      | none => rw [habs] at h; cases h
      | some l =>
        cases hrest : resolveReport creds cs rest with
        | none => rw [habs, hrest] at h; cases h
        | some ls =>
          rw [habs, hrest] at h
          cases h
          have hcred := (resolveAbuseLine_fields creds cs kv l habs).1
          rw [List.countP_cons, List.countP_cons, ih ls hrest]
          simp [hcred, h100]
    · rw [if_neg h100] at h
      rw [List.countP_cons, ih lines h]
      simp [h100]

/-- Every report line comes from a qualifying tally entry. -/
theorem resolveReport_mem (creds : List Credential) (cs : List Consumer)
    (tally : List (Nat × Nat)) (lines : List AbuseLine)
    (h : resolveReport creds cs tally = some lines) :
    ∀ l ∈ lines, ∃ kv ∈ tally, resolveAbuseLine creds cs kv = some l ∧ 100 ≤ kv.2 := by
  induction tally generalizing lines with
  | nil =>
    unfold resolveReport at h
    cases h
    simp
  | cons kv rest ih =>
    unfold resolveReport at h
    by_cases h100 : 100 ≤ kv.2
    · rw [if_pos h100] at h
      cases habs : resolveAbuseLine creds cs kv with
      | none => rw [habs] at h; cases h
      | some l =>
        cases hrest : resolveReport creds cs rest with
        | none => rw [habs, hrest] at h; cases h
        | some ls =>
          rw [habs, hrest] at h
          cases h
          intro x hx
          rcases List.mem_cons.mp hx with hx | hx
          · exact ⟨kv, List.mem_cons_self .., hx ▸ ⟨habs, h100⟩⟩
          · obtain ⟨kv', hkv', hres', h100'⟩ := ih ls hrest x hx
            exact ⟨kv', List.mem_cons_of_mem _ hkv', hres', h100'⟩
    · rw [if_neg h100] at h
      intro x hx
      obtain ⟨kv', hkv', hres', h100'⟩ := ih lines h x hx
      exact ⟨kv', List.mem_cons_of_mem _ hkv', hres', h100'⟩

/-- C4: when the report phase completes, a credential contributes a line
exactly when its tally is at least 100 — exactly one line, carrying the
resolved consumer id, the username of that consumer and the tally as the
tokens-created count; credentials below 100 contribute none. -/
theorem abuse_report_exact (now : Int) (rows : List TokenRow) (creds : List Credential)
    (cs : List Consumer) (lines : List AbuseLine)
    (h : resolveReport creds cs (scanTokens now rows).consumer_tokens = some lines)
    (k : Nat) :
    (lines.countP (fun l => l.credential == k) =
      if 100 ≤ (dictGet (scanTokens now rows).consumer_tokens k).getD 0 then 1 else 0)
    ∧ (∀ l ∈ lines, l.credential = k →
        dictGet (scanTokens now rows).consumer_tokens k = some l.tokens_created
        ∧ lookupConsumerId creds k = some l.consumer_id
        ∧ lookupUsername cs l.consumer_id = some l.username) := by
  have hnd := scan_tally_nodup_keys now rows
  constructor
  · rw [resolveReport_count creds cs _ lines h k,
      countP_key_of_nodup _ hnd k (fun v => decide (100 ≤ v))]
    cases hg : dictGet (scanTokens now rows).consumer_tokens k with
    | none => simp
    | some v => simp
  · intro l hl hcr
    obtain ⟨kv, hkv, hres, h100⟩ := resolveReport_mem creds cs _ lines h l hl
    obtain ⟨hc, ht, hcid, hu⟩ := resolveAbuseLine_fields creds cs kv l hres
    have hkv' : kv = (k, l.tokens_created) := by
      obtain ⟨k1, v1⟩ := kv
      simp only at hc ht
      rw [Prod.mk.injEq]
      exact ⟨hc.symm.trans hcr, ht.symm⟩
    have hget : dictGet (scanTokens now rows).consumer_tokens k = some l.tokens_created :=
      dictGet_eq_some_of_mem _ hnd _ _ (hkv' ▸ hkv)
    refine ⟨hget, ?_, hu⟩
    rw [← hc, hcr] at hcid
    exact hcid

/-- Witness for C4: one expired token of credential 8; its tally 1 is below
100, so the report resolves to the empty list and credential 8 contributes
zero lines. -/
theorem abuse_report_exact_witness :
    (resolveReport [] []
        (scanTokens 1
          [({ id := 1, credential_id := 8, expires_in := 0,
              created_at := { wallclock := 0, tz := none } } : TokenRow)]).consumer_tokens =
      some [])
    ∧ ((([] : List AbuseLine).countP (fun l => l.credential == 8) =
        if 100 ≤ (dictGet
            (scanTokens 1
              [({ id := 1, credential_id := 8, expires_in := 0,
                  created_at := { wallclock := 0, tz := none } } : TokenRow)]).consumer_tokens
            8).getD 0 then 1 else 0)
      ∧ (∀ l ∈ ([] : List AbuseLine), l.credential = 8 →
          dictGet (scanTokens 1
              [({ id := 1, credential_id := 8, expires_in := 0,
                  created_at := { wallclock := 0, tz := none } } : TokenRow)]).consumer_tokens
            8 = some l.tokens_created
          ∧ lookupConsumerId [] 8 = some l.consumer_id
          ∧ lookupUsername [] l.consumer_id = some l.username)) :=
  ⟨by decide, abuse_report_exact 1 _ [] [] [] (by decide) 8⟩

/-- C9: at the end of every scan the values of the per-credential tally sum
to `rowsdeleted` — each deletion increments both exactly once. -/
theorem tally_sum_eq_rowsdeleted (now : Int) (rows : List TokenRow) :
    sumValues (scanTokens now rows).consumer_tokens = (scanTokens now rows).rowsdeleted := by
  unfold scanTokens
  rw [foldl_processRow_consumer_tokens, foldl_processRow_rowsdeleted,
    sumValues_foldl_dictIncr, List.countP_eq_length_filter]
  simp [sumValues]

/-- C6: with each of the two mail options either unset or set non-empty, an
email is handed to SMTP iff both the recipient and the relay were set; at
most one message is ever sent; and the deletion and reporting behaviour
is the same as with mailing unset entirely. -/
theorem email_sent_iff_configured (args : Args) (b h s t : String) (now : Int)
    (tokens : List TokenRow) (creds : List Credential) (cs : List Consumer)
    (ks ch : String)
    (he : noneOrNonempty args.email) (hs : noneOrNonempty args.smtpserver) :
    (sendEmailAlert args b h s t ≠ [] ↔ (args.email ≠ none ∧ args.smtpserver ≠ none))
    ∧ (sendEmailAlert args b h s t).length ≤ 1
    ∧ coreOf (runSweep now tokens creds cs args ks ch) =
        coreOf (runSweep now tokens creds cs
          { args with email := none, smtpserver := none } ks ch) := by
  refine ⟨?_, ?_, ?_⟩
  · rcases he with he | ⟨es, he, hne⟩
    · rcases hs with hs | ⟨ss, hs, hns⟩
      · simp [sendEmailAlert, truthy, he, hs]
      · simp [sendEmailAlert, truthy, he, hs, hns]
    · rcases hs with hs | ⟨ss, hs, hns⟩
      · simp [sendEmailAlert, truthy, he, hs, hne]
      · simp [sendEmailAlert, truthy, he, hs, hne, hns]
  · by_cases hg : (truthy args.email && truthy args.smtpserver) = true <;>
      simp [sendEmailAlert, hg]
  · unfold runSweep
    cases hrep : resolveReport creds cs (scanTokens now tokens).consumer_tokens <;>
      simp [coreOf]

/-- Witness for C6: recipient and relay both set (non-empty), so the guard
fires, exactly one message goes out, and the core run is unchanged. -/
theorem email_sent_iff_configured_witness :
    noneOrNonempty (some "ops@example.com")
    ∧ noneOrNonempty (some "mail.relay.com")
    ∧ ((sendEmailAlert
          { email := some "ops@example.com", sender := none,
            smtpserver := some "mail.relay.com", ssl := false, ca := none }
          "body" "host" "subj" "time" ≠ [] ↔
        (({ email := some "ops@example.com", sender := none,
            smtpserver := some "mail.relay.com", ssl := false, ca := none } : Args).email ≠ none
          ∧ ({ email := some "ops@example.com", sender := none,
               smtpserver := some "mail.relay.com", ssl := false, ca := none } : Args).smtpserver ≠ none))
      ∧ (sendEmailAlert
          { email := some "ops@example.com", sender := none,
            smtpserver := some "mail.relay.com", ssl := false, ca := none }
          "body" "host" "subj" "time").length ≤ 1
      ∧ coreOf (runSweep 0 [] [] []
            { email := some "ops@example.com", sender := none,
              smtpserver := some "mail.relay.com", ssl := false, ca := none } "ks" "ch") =
          coreOf (runSweep 0 [] [] []
            { ({ email := some "ops@example.com", sender := none,
                 smtpserver := some "mail.relay.com", ssl := false, ca := none } : Args) with
              email := none, smtpserver := none } "ks" "ch")) :=
  ⟨Or.inr ⟨"ops@example.com", rfl, by decide⟩,
   Or.inr ⟨"mail.relay.com", rfl, by decide⟩,
   email_sent_iff_configured _ "body" "host" "subj" "time" 0 [] [] [] "ks" "ch"
     (Or.inr ⟨"ops@example.com", rfl, by decide⟩)
     (Or.inr ⟨"mail.relay.com", rfl, by decide⟩)⟩

/-- C7: with `--ssl` set and `--ca` either missing or naming a path that
does not exist, the program aborts with a usage error and never attempts a
database connection. -/
theorem ssl_requires_existing_ca (pathExists : String → Bool) (args : Args) (now : Int)
    (tokens : List TokenRow) (creds : List Credential) (cs : List Consumer)
    (ks ch : String)
    (hssl : args.ssl = true)
    (hbad : args.ca = none ∨ ∃ p, args.ca = some p ∧ pathExists p = false) :
    (∃ m, programRun pathExists args now tokens creds cs ks ch = Except.error m)
    ∧ Event.connect ∉ programEvents (programRun pathExists args now tokens creds cs ks ch) := by
  have hval : ∃ m, validateSslArgs args.ssl args.ca pathExists = CliOutcome.usageError m := by
    rcases hbad with hc | ⟨p, hc, hpe⟩
    · exact ⟨"--ssl requires --ca to set a truststore",
        by simp [validateSslArgs, hssl, hc]⟩
    · exact ⟨"--ca file not found or reachable",
        by simp [validateSslArgs, hssl, hc, hpe]⟩
  obtain ⟨m, hm⟩ := hval
  refine ⟨⟨m, ?_⟩, ?_⟩
  · simp [programRun, hm]
  · simp [programRun, hm, programEvents]

/-- Witness for C7: `--ssl` with no `--ca` on a filesystem where nothing
exists: usage error, no connection event. -/
theorem ssl_requires_existing_ca_witness :
    ({ email := none, sender := none, smtpserver := none, ssl := true, ca := none } : Args).ssl = true
    ∧ (({ email := none, sender := none, smtpserver := none, ssl := true, ca := none } : Args).ca = none
        ∨ ∃ p, ({ email := none, sender := none, smtpserver := none, ssl := true,
                  ca := none } : Args).ca = some p ∧ (fun (_ : String) => false) p = false)
    ∧ ((∃ m, programRun (fun _ => false)
          { email := none, sender := none, smtpserver := none, ssl := true, ca := none }
          0 [] [] [] "ks" "ch" = Except.error m)
      ∧ Event.connect ∉ programEvents (programRun (fun _ => false)
          { email := none, sender := none, smtpserver := none, ssl := true, ca := none }
          0 [] [] [] "ks" "ch")) :=
  ⟨rfl, Or.inl rfl,
   ssl_requires_existing_ca (fun _ => false) _ 0 [] [] [] "ks" "ch" rfl (Or.inl rfl)⟩

/-- C8 (amended): the cluster handle is shut down exactly when the run
reaches its end without raising; a run that aborts with an error never
emits the shutdown. -/
theorem shutdown_iff_success (now : Int) (tokens : List TokenRow) (creds : List Credential)
    (cs : List Consumer) (args : Args) (ks ch : String) :
    Event.shutdown ∈ (runSweep now tokens creds cs args ks ch).events ↔
      sweepSucceeded (runSweep now tokens creds cs args ks ch) = true := by
  unfold runSweep
  cases hrep : resolveReport creds cs (scanTokens now tokens).consumer_tokens <;>
    simp [sweepSucceeded]

/-- Counterexample to C8 as stated: a run over 100 expired tokens of
credential 7 whose abuse resolution fails (no credentials table row)
aborts, and the connection is never shut down on that exit path. -/
theorem shutdown_skipped_on_abort :
    Event.shutdown ∉
      (runSweep 1 ((List.range 100).map (fun i =>
          { id := i, credential_id := 7, expires_in := 0,
            created_at := { wallclock := 0, tz := none } })) [] []
        { email := none, sender := none, smtpserver := none, ssl := false, ca := none }
        "kong" "host").events
    ∧ sweepSucceeded (runSweep 1 ((List.range 100).map (fun i =>
          { id := i, credential_id := 7, expires_in := 0,
            created_at := { wallclock := 0, tz := none } })) [] []
        { email := none, sender := none, smtpserver := none, ssl := false, ca := none }
        "kong" "host") = false := by
  constructor <;> decide

end KongCleanup
